import Mathlib

/-!
Verification development for the follow-up question-answering pipeline
(`handleQaFollowup` and its helpers).  The TypeScript source is shallowly
embedded: external collaborators (subject lookup, chunk fetch, embedding +
similarity search, completion service) are modelled as the fields of a
`World` record holding the outcome each call would produce, and
`handleQaFollowup` becomes a pure function `World → FollowupRequest →
Except String FollowupResult`.  String processing (tokenization, sentence
splitting, scoring) is embedded at the character-list level, matching the
regular expressions of the source on ASCII text.  `Array.prototype.sort`
with comparator `(a, b) => b.score - a.score` is embedded as a stable
insertion sort by descending score (ECMA-262 requires sort stability).
-/

/-- Fixed not-found sentence from the source. -/
def NOT_FOUND_MSG : String := "Not found in your notes for this subject."

/-- Stop-word list from the source (the STOPWORDS set). -/
def STOPWORDS : List String :=
  ["the", "is", "and", "or", "a", "an", "of", "to", "in", "on", "for",
   "with", "at", "by", "from", "as", "that", "this", "it", "are", "was",
   "be", "can", "will", "shall"]

/-- Characters kept by the regex replacement in the source; all other
characters are replaced by a space, which breaks token runs. -/
def isTokenChar (c : Char) : Bool :=
  ('a' ≤ c && c ≤ 'z') || ('0' ≤ c && c ≤ '9')

/-- Whitespace characters recognised by the JS regex class used in the
source (ASCII subset). -/
def isSpaceChar (c : Char) : Bool :=
  c == ' ' || c == '\t' || c == '\n' || c == '\r'

/-- Sentence-ending punctuation of the lookbehind in the source. -/
def isEnderChar (c : Char) : Bool :=
  c == '.' || c == '!' || c == '?'

/-- Maximal runs of token characters, in order.  This is the composition
of the replacement of non-token characters by spaces followed by the
whitespace split and the emptiness filter of the source. -/
def tokensAux (cur : List Char) : List Char → List String
  | [] => if cur.isEmpty then [] else [String.mk cur.reverse]
  | c :: rest =>
    if isTokenChar c then tokensAux (c :: cur) rest
    else if cur.isEmpty then tokensAux [] rest
    else String.mk cur.reverse :: tokensAux [] rest

/-- Tokenization used for both questions and sentences in the source:
lowercase, strip non-alphanumeric characters, split on whitespace, drop
stop-words. -/
def significantTokens (s : String) : List String :=
  (tokensAux [] (s.data.map Char.toLower)).filter (fun t => !STOPWORDS.contains t)

/-- Count of significant tokens of the sentence (with multiplicity) that
occur among the question tokens; the sentenceScore function of the
source. -/
def sentenceScore (sentence : String) (questionTokens : List String) : Nat :=
  ((significantTokens sentence).filter (fun t => questionTokens.contains t)).length

/-- Trim of ASCII whitespace from both ends, as String.prototype.trim. -/
def trimChars (l : List Char) : List Char :=
  ((l.dropWhile isSpaceChar).reverse.dropWhile isSpaceChar).reverse

/-- Split at whitespace following sentence-ending punctuation, as the
lookbehind split of the source; `cur` carries the current segment
reversed, so its head is the character just before the cursor. -/
def sentencesAux (cur : List Char) : List Char → List (List Char)
  | [] => [cur.reverse]
  | c :: rest =>
    if isSpaceChar c && isEnderChar (cur.headD ' ') then
      cur.reverse :: sentencesAux [] rest
    else sentencesAux (c :: cur) rest

/-- splitIntoSentences of the source: split after `.`, `!` or `?`
followed by whitespace, trim each part, drop empty parts. -/
def splitIntoSentences (text : String) : List String :=
  (((sentencesAux [] text.data).map (fun l => trimChars l)).filter
      (fun l => !l.isEmpty)).map (fun l => String.mk l)

/-- First-occurrence deduplication with an accumulator of already seen
elements; models iteration of a JS Set constructor. -/
def dedupFirstAux (seen : List String) : List String → List String
  | [] => []
  | x :: xs =>
    if seen.contains x then dedupFirstAux seen xs
    else x :: dedupFirstAux (x :: seen) xs

/-- Array.from(new Set(xs)) of the source: first occurrences, in order. -/
def dedupFirst (l : List String) : List String := dedupFirstAux [] l

/-- A stored chunk row as selected by the source (id, file_name,
page_range, content). -/
structure ChunkRecord where
  id : String
  file_name : String
  page_range : String
  content : String
deriving DecidableEq, Repr

/-- A model-claimed citation. -/
structure Citation where
  chunk_id : String
  file_name : String
  page_range : String
deriving DecidableEq, Repr

/-- The parsed completion payload (GroqFollowupRaw): every field may be
absent or of the wrong shape, in which case the source substitutes a
default, modelled by none. -/
structure GroqFollowupRaw where
  notFound : Option Bool
  answer : Option String
  citations : Option (List Citation)
  used_chunk_ids : Option (List String)
deriving DecidableEq, Repr

/-- A supporting extract; citation carries (file_name, page_range). -/
structure SupportingExtract where
  text : String
  chunk_id : String
  citation : Option (String × String)
deriving DecidableEq, Repr

/-- The result record returned by handleQaFollowup. -/
structure FollowupResult where
  thread_id : String
  notFound : Bool
  answer : String
  citations : List Citation
  used_chunk_ids : List String
  supporting_extracts : List SupportingExtract
deriving DecidableEq, Repr

/-- Validated request body (after the zod schema of the source; the
last_extracts field is accepted but unused by the handler logic). -/
structure FollowupRequest where
  subject_id : String
  question : String
  thread_id : String
  last_chunk_ids : List String
deriving DecidableEq, Repr

/-- Outcomes of the external collaborator calls for one request:
subject lookup (none means not found for this user, which throws),
prior-chunk fetch, embedding + similarity search (error means the call
threw or the rpc reported an error), and the completion call followed by
JSON.parse (error means the completion service itself threw; ok none
means the returned text failed to parse as JSON). -/
structure World where
  subject : Option String
  baseChunks : Except String (List ChunkRecord)
  search : Except String (List ChunkRecord)
  model : Except String (Option GroqFollowupRaw)

/-- The intermediate (notFound, answer, citations, used_chunk_ids)
state that the sanitization block of the source rewrites in place. -/
structure SanState where
  notFound : Bool
  answer : String
  citations : List Citation
  used_chunk_ids : List String
deriving DecidableEq, Repr

/-- Lines 218-238 of the handler viewed as a pure function of the
allowed id set: filter citations by membership, derive used ids from
citations when empty, filter and deduplicate them, force notFound when
either list is empty, and reset to the fixed not-found shape when
notFound holds. -/
def sanitize (allowed : List String) (s : SanState) : SanState :=
  let citations := s.citations.filter (fun c => allowed.contains c.chunk_id)
  let used1 := if s.used_chunk_ids.length = 0 then citations.map Citation.chunk_id
               else s.used_chunk_ids
  let used := dedupFirst (used1.filter (fun i => allowed.contains i))
  let notFound := if citations.length = 0 ∨ used.length = 0 then true else s.notFound
  if notFound then
    { notFound := true, answer := NOT_FOUND_MSG, citations := [], used_chunk_ids := [] }
  else
    { notFound := false, answer := s.answer, citations := citations, used_chunk_ids := used }

/-- One scored sentence of a used chunk, before ranking. -/
structure Evidence where
  text : String
  chunk_id : String
  file_name : String
  page_range : String
  score : Nat
deriving DecidableEq, Repr

/-- Descending-score ordering used to rank evidences. -/
def scoreGE (a b : Evidence) : Prop := b.score ≤ a.score

instance : DecidableRel scoreGE := fun a b => Nat.decLe b.score a.score

instance : IsTotal Evidence scoreGE := ⟨fun a b => Nat.le_total b.score a.score⟩

instance : IsTrans Evidence scoreGE := ⟨fun _ _ _ h1 h2 => Nat.le_trans h2 h1⟩

/-- The sort of the source, evidences.sort((a, b) => b.score - a.score):
a stable sort by descending score. -/
def sortByScoreDesc (l : List Evidence) : List Evidence :=
  List.insertionSort scoreGE l

/-- The Map built by the source keeps the last chunk stored under each
id, so lookup finds the last matching record. -/
def chunkById (allChunks : List ChunkRecord) (cid : String) : Option ChunkRecord :=
  allChunks.reverse.find? (fun c => c.id == cid)

/-- The evidence-discovery loop of the source: iterate used chunk ids in
order, split each found chunk into sentences, score each sentence and
keep the positively scoring ones, in discovery order. -/
def discoverEvidences (question : String) (allChunks : List ChunkRecord)
    (used : List String) : List Evidence :=
  let qTokens := significantTokens question
  used.flatMap (fun cid =>
    match chunkById allChunks cid with
    | none => []
    | some c =>
      (splitIntoSentences c.content).filterMap (fun s =>
        let sc := sentenceScore s qTokens
        if sc = 0 then none
        else some { text := s, chunk_id := cid, file_name := c.file_name,
                    page_range := c.page_range, score := sc }))

/-- Sort the discovered evidences by descending score (stably), keep at
most eight, and project to supporting extracts. -/
def extractTop (question : String) (allChunks : List ChunkRecord)
    (used : List String) : List SupportingExtract :=
  ((sortByScoreDesc (discoverEvidences question allChunks used)).take 8).map
    (fun e => { text := e.text, chunk_id := e.chunk_id,
                citation := some (e.file_name, e.page_range) })

/-- The fixed not-found result of the source with the thread id echoed. -/
def notFoundResult (thread_id : String) : FollowupResult :=
  { thread_id := thread_id, notFound := true, answer := NOT_FOUND_MSG,
    citations := [], used_chunk_ids := [], supporting_extracts := [] }

/-- Lines 218-301 of the handler: default the parsed fields, sanitize
them against the allowed ids, compute extracts when the result is found,
and assemble the final record. -/
def mainResult (thread_id question : String) (allChunks : List ChunkRecord)
    (raw : GroqFollowupRaw) : FollowupResult :=
  let allowed := allChunks.map ChunkRecord.id
  let s := sanitize allowed
    { notFound := raw.notFound.getD false, answer := raw.answer.getD "",
      citations := raw.citations.getD [], used_chunk_ids := raw.used_chunk_ids.getD [] }
  { thread_id := thread_id, notFound := s.notFound, answer := s.answer,
    citations := s.citations, used_chunk_ids := s.used_chunk_ids,
    supporting_extracts :=
      if s.notFound = false ∧ s.used_chunk_ids ≠ [] then
        extractTop question allChunks s.used_chunk_ids
      else [] }

/-- The merge loop over similarity matches: append each match whose id
is not already present. -/
def mergeMatches (base : List ChunkRecord) (ms : List ChunkRecord) :
    List ChunkRecord :=
  ms.foldl (fun acc m => if acc.any (fun c => c.id == m.id) then acc
                              else acc ++ [m]) base

/-- Evidence-set assembly (lines 102-144): deduplicate the prior ids,
fetch them when any exist (a fetch error is a hard failure), then merge
best-effort similarity results, swallowing a search failure. -/
def assembleChunks (w : World) (req : FollowupRequest) :
    Except String (List ChunkRecord) :=
  let baseChunkIds := dedupFirst req.last_chunk_ids
  match (if 0 < baseChunkIds.length then w.baseChunks else Except.ok []) with
  | Except.error m => Except.error ("Failed to load context chunks: " ++ m)
  | Except.ok base =>
    match w.search with
    | Except.error _ => Except.ok base
    | Except.ok ms => Except.ok (mergeMatches base ms)

/-- The full handler on a validated request: subject check, evidence
assembly, empty-evidence short circuit, completion call (a thrown
completion error propagates; a JSON parse failure yields the not-found
result), then sanitization and extraction. -/
def handleQaFollowup (w : World) (req : FollowupRequest) :
    Except String FollowupResult :=
  match w.subject with
  | none => Except.error "Subject not found for user"
  | some _ =>
    match assembleChunks w req with
    | Except.error m => Except.error m
    | Except.ok allChunks =>
      if allChunks.length = 0 then Except.ok (notFoundResult req.thread_id)
      else
        match w.model with
        | Except.error m => Except.error m
        | Except.ok none => Except.ok (notFoundResult req.thread_id)
        | Except.ok (some raw) =>
          Except.ok (mainResult req.thread_id req.question allChunks raw)

deriving instance DecidableEq for Except

/-- The filtered citations of the sanitization block. -/
def sanCitations (allowed : List String) (s : SanState) : List Citation :=
  s.citations.filter (fun c => allowed.contains c.chunk_id)

/-- The filtered, deduplicated used ids of the sanitization block
(derived from the filtered citations when the model returned none). -/
def sanUsed (allowed : List String) (s : SanState) : List String :=
  dedupFirst ((if s.used_chunk_ids.length = 0
               then (sanCitations allowed s).map Citation.chunk_id
               else s.used_chunk_ids).filter (fun i => allowed.contains i))

/-- The in-place state the source builds from the parsed payload before
sanitizing (the four defaulting lines). -/
def rawState (raw : GroqFollowupRaw) : SanState :=
  { notFound := raw.notFound.getD false, answer := raw.answer.getD "",
    citations := raw.citations.getD [], used_chunk_ids := raw.used_chunk_ids.getD [] }


/-- Concrete chunk used by the worked scenarios. -/
def chunk1 : ChunkRecord :=
  { id := "c1", file_name := "notes.pdf", page_range := "1-2",
    content := "Photosynthesis converts light into chemical energy. Plants use chlorophyll." }

/-- Scenario world for the worked photosynthesis example: one prior
chunk, no similarity matches, and a well-formed model payload citing the
chunk. -/
def w8 : World :=
  { subject := some "Biology", baseChunks := Except.ok [chunk1],
    search := Except.ok [], model := Except.ok (some
      { notFound := some false, answer := some "Plants convert light via photosynthesis.",
        citations := some [{ chunk_id := "c1", file_name := "notes.pdf", page_range := "1-2" }],
        used_chunk_ids := some ["c1"] }) }

def req8 : FollowupRequest :=
  { subject_id := "sub1", question := "How do plants convert light?",
    thread_id := "t8", last_chunk_ids := ["c1"] }

/-- The result the pipeline produces on the photosynthesis scenario. -/
def result8 : FollowupResult :=
  { thread_id := "t8", notFound := false,
    answer := "Plants convert light via photosynthesis.",
    citations := [{ chunk_id := "c1", file_name := "notes.pdf", page_range := "1-2" }],
    used_chunk_ids := ["c1"],
    supporting_extracts :=
      [{ text := "Photosynthesis converts light into chemical energy.", chunk_id := "c1",
         citation := some ("notes.pdf", "1-2") },
       { text := "Plants use chlorophyll.", chunk_id := "c1",
         citation := some ("notes.pdf", "1-2") }] }

/-- World whose model citation carries a fabricated file name and page
range under a real chunk id. -/
def w9 : World :=
  { subject := some "Biology", baseChunks := Except.ok [chunk1],
    search := Except.ok [], model := Except.ok (some
      { notFound := some false, answer := some "An answer.",
        citations := some [{ chunk_id := "c1", file_name := "fake.pdf", page_range := "99" }],
        used_chunk_ids := some ["c1"] }) }

def req9 : FollowupRequest :=
  { subject_id := "sub1", question := "What is chlorophyll?",
    thread_id := "t9", last_chunk_ids := ["c1"] }

/-- World whose model payload parses but has no answer and no notFound
field, with one valid citation and no used_chunk_ids. -/
def w10 : World :=
  { subject := some "Biology", baseChunks := Except.ok [chunk1],
    search := Except.ok [], model := Except.ok (some
      { notFound := none, answer := none,
        citations := some [{ chunk_id := "c1", file_name := "notes.pdf", page_range := "1-2" }],
        used_chunk_ids := none }) }

def req10 : FollowupRequest :=
  { subject_id := "sub1", question := "zzz qqq", thread_id := "t10",
    last_chunk_ids := ["c1"] }

/-- World whose completion response fails to parse as JSON. -/
def w4 : World :=
  { subject := some "Biology", baseChunks := Except.ok [chunk1],
    search := Except.ok [], model := Except.ok none }

def req4 : FollowupRequest :=
  { subject_id := "sub1", question := "anything", thread_id := "t4",
    last_chunk_ids := ["c1"] }

/-- World with no prior ids, a throwing similarity search, and a
completion service that would fail if it were ever invoked. -/
def w5 : World :=
  { subject := some "Biology", baseChunks := Except.error "unused",
    search := Except.error "search timeout", model := Except.error "service down" }

def req5 : FollowupRequest :=
  { subject_id := "sub1", question := "anything", thread_id := "t5",
    last_chunk_ids := [] }

/-- World with prior chunks and a throwing similarity search. -/
def w6 : World :=
  { subject := some "Biology", baseChunks := Except.ok [chunk1],
    search := Except.error "embedding failed", model := Except.ok (some
      { notFound := some false, answer := some "An answer.",
        citations := some [{ chunk_id := "c1", file_name := "notes.pdf", page_range := "1-2" }],
        used_chunk_ids := some ["c1"] }) }

def req6 : FollowupRequest :=
  { subject_id := "sub1", question := "What is chlorophyll?",
    thread_id := "t6", last_chunk_ids := ["c1"] }

theorem dedupFirstAux_cons (seen : List String) (a : String) (t : List String) :
    dedupFirstAux seen (a :: t) =
      if a ∈ seen then dedupFirstAux seen t else a :: dedupFirstAux (a :: seen) t := by
  simp only [dedupFirstAux]
  by_cases h : a ∈ seen
  · simp [h]
  · simp [h]

theorem mem_dedupFirstAux (x : String) :
    ∀ (l seen : List String), x ∈ dedupFirstAux seen l ↔ x ∈ l ∧ x ∉ seen := by
  intro l
  induction l with
  | nil => intro seen; simp [dedupFirstAux]
  | cons a t ih =>
    intro seen
    rw [dedupFirstAux_cons]
    by_cases h : a ∈ seen
    · rw [if_pos h, ih]
      constructor
      · rintro ⟨hx, hs⟩
        exact ⟨List.mem_cons_of_mem _ hx, hs⟩
      · rintro ⟨hx, hs⟩
        rcases List.mem_cons.mp hx with rfl | hx
        · exact absurd h hs
        · exact ⟨hx, hs⟩
    · rw [if_neg h]
      simp only [List.mem_cons, ih]
      constructor
      · rintro (rfl | ⟨hx, hs⟩)
        · exact ⟨Or.inl rfl, h⟩
        · exact ⟨Or.inr hx, fun hmem => hs (Or.inr hmem)⟩
      · rintro ⟨rfl | hx, hs⟩
        · exact Or.inl rfl
        · by_cases hxa : x = a
          · exact Or.inl hxa
          · refine Or.inr ⟨hx, fun hmem => ?_⟩
            rcases hmem with h1 | h1
            · exact hxa h1
            · exact hs h1

theorem nodup_dedupFirstAux :
    ∀ (l seen : List String), (dedupFirstAux seen l).Nodup := by
  intro l
  induction l with
  | nil => intro seen; simp [dedupFirstAux]
  | cons a t ih =>
    intro seen
    rw [dedupFirstAux_cons]
    by_cases h : a ∈ seen
    · rw [if_pos h]; exact ih seen
    · rw [if_neg h]
      refine List.Nodup.cons ?_ (ih (a :: seen))
      intro hmem
      have hm := (mem_dedupFirstAux a t (a :: seen)).mp hmem
      exact hm.2 (List.mem_cons_self a seen)

theorem dedupFirstAux_eq_self :
    ∀ (l seen : List String), l.Nodup → (∀ x ∈ l, x ∉ seen) →
      dedupFirstAux seen l = l := by
  intro l
  induction l with
  | nil => intro seen _ _; rfl
  | cons a t ih =>
    intro seen hnd hdis
    rw [dedupFirstAux_cons, if_neg (hdis a (List.mem_cons_self a t))]
    congr 1
    refine ih (a :: seen) (List.Nodup.of_cons hnd) ?_
    intro x hx hmem
    rcases List.mem_cons.mp hmem with rfl | h1
    · exact (List.nodup_cons.mp hnd).1 hx
    · exact hdis x (List.mem_cons_of_mem _ hx) h1

theorem mem_dedupFirst {x : String} {l : List String} :
    x ∈ dedupFirst l ↔ x ∈ l := by
  simp [dedupFirst, mem_dedupFirstAux]

theorem nodup_dedupFirst (l : List String) : (dedupFirst l).Nodup :=
  nodup_dedupFirstAux l []

theorem dedupFirst_eq_self {l : List String} (h : l.Nodup) : dedupFirst l = l :=
  dedupFirstAux_eq_self l [] h (by simp)

/-- Normal form of the sanitizer: the two-step notFound update of the
source collapses to a single condition. -/
theorem sanitize_eq (a : List String) (s : SanState) :
    sanitize a s =
      if (sanCitations a s).length = 0 ∨ (sanUsed a s).length = 0 ∨ s.notFound = true then
        { notFound := true, answer := NOT_FOUND_MSG, citations := [], used_chunk_ids := [] }
      else
        { notFound := false, answer := s.answer, citations := sanCitations a s,
          used_chunk_ids := sanUsed a s } := by
  simp only [sanitize, sanCitations, sanUsed]
  split_ifs <;> first | rfl | tauto

theorem sanCitations_mem {a : List String} {s : SanState} {c : Citation}
    (h : c ∈ sanCitations a s) : c.chunk_id ∈ a := by
  have := List.of_mem_filter h
  simpa using this

theorem sanUsed_mem {a : List String} {s : SanState} {i : String}
    (h : i ∈ sanUsed a s) : i ∈ a := by
  have h1 := mem_dedupFirst.mp h
  have := List.of_mem_filter h1
  simpa using this

theorem sanUsed_nodup (a : List String) (s : SanState) : (sanUsed a s).Nodup :=
  nodup_dedupFirst _

/-- The sanitizer either returns the fixed not-found state or a found
state whose lists are nonempty. -/
theorem sanitize_shape (a : List String) (s : SanState) :
    sanitize a s =
      { notFound := true, answer := NOT_FOUND_MSG, citations := [], used_chunk_ids := [] } ∨
    (sanitize a s =
      { notFound := false, answer := s.answer, citations := sanCitations a s,
        used_chunk_ids := sanUsed a s } ∧
      sanCitations a s ≠ [] ∧ sanUsed a s ≠ []) := by
  rw [sanitize_eq]
  split_ifs with h
  · exact Or.inl rfl
  · push_neg at h
    refine Or.inr ⟨rfl, ?_, ?_⟩
    · exact fun he => h.1 (by simp [he])
    · exact fun he => h.2.1 (by simp [he])

theorem sanCitations_of_all_mem (a : List String) (t : SanState)
    (h : ∀ c ∈ t.citations, c.chunk_id ∈ a) : sanCitations a t = t.citations := by
  simp only [sanCitations]
  exact List.filter_eq_self.mpr (fun c hc => by simpa using h c hc)

theorem sanUsed_of_ne_nil (a : List String) (t : SanState)
    (h : t.used_chunk_ids ≠ []) (hsub : ∀ i ∈ t.used_chunk_ids, i ∈ a)
    (hnd : t.used_chunk_ids.Nodup) : sanUsed a t = t.used_chunk_ids := by
  simp only [sanUsed]
  rw [if_neg (fun he => h (List.length_eq_zero.mp he))]
  rw [List.filter_eq_self.mpr (fun i hi => by simpa using hsub i hi)]
  exact dedupFirst_eq_self hnd

theorem sanitize_idem (a : List String) (s : SanState) :
    sanitize a (sanitize a s) = sanitize a s := by
  rcases sanitize_shape a s with h | ⟨h, hc, hu⟩
  · rw [h, sanitize_eq]
    simp [sanCitations, sanUsed, dedupFirst, dedupFirstAux]
  · rw [h]
    have hcits : sanCitations a
        { notFound := false, answer := s.answer, citations := sanCitations a s,
          used_chunk_ids := sanUsed a s } = sanCitations a s :=
      sanCitations_of_all_mem a _ (fun c hc2 => sanCitations_mem hc2)
    have hused : sanUsed a
        { notFound := false, answer := s.answer, citations := sanCitations a s,
          used_chunk_ids := sanUsed a s } = sanUsed a s :=
      sanUsed_of_ne_nil a _ hu (fun i hi => sanUsed_mem hi) (sanUsed_nodup a s)
    rw [sanitize_eq]
    simp only [hcits, hused]
    rw [if_neg]
    push_neg
    refine ⟨?_, ?_, by simp⟩
    · exact fun he => hc (List.length_eq_zero.mp he)
    · exact fun he => hu (List.length_eq_zero.mp he)

/-- Every ok result of the handler is either the fixed not-found result
or the sanitized main result for the assembled evidence and a
successfully parsed model payload. -/
theorem handle_shape (w : World) (req : FollowupRequest) (r : FollowupResult)
    (h : handleQaFollowup w req = Except.ok r) :
    r = notFoundResult req.thread_id ∨
    (∃ chunks raw, assembleChunks w req = Except.ok chunks ∧ chunks ≠ [] ∧
      w.model = Except.ok (some raw) ∧
      r = mainResult req.thread_id req.question chunks raw) := by
  unfold handleQaFollowup at h
  split at h
  · exact absurd h (by simp)
  · split at h
    · exact absurd h (by simp)
    · rename_i allChunks heq
      split at h
      · exact Or.inl (Except.ok.inj h).symm
      · rename_i hlen
        split at h
        · exact absurd h (by simp)
        · exact Or.inl (Except.ok.inj h).symm
        · rename_i raw hraw
          refine Or.inr ⟨allChunks, raw, heq, ?_, hraw, (Except.ok.inj h).symm⟩
          exact fun he => hlen (by simp [he])

theorem mainResult_def (tid q : String) (chunks : List ChunkRecord)
    (raw : GroqFollowupRaw) :
    mainResult tid q chunks raw =
      { thread_id := tid,
        notFound := (sanitize (chunks.map ChunkRecord.id) (rawState raw)).notFound,
        answer := (sanitize (chunks.map ChunkRecord.id) (rawState raw)).answer,
        citations := (sanitize (chunks.map ChunkRecord.id) (rawState raw)).citations,
        used_chunk_ids := (sanitize (chunks.map ChunkRecord.id) (rawState raw)).used_chunk_ids,
        supporting_extracts :=
          if (sanitize (chunks.map ChunkRecord.id) (rawState raw)).notFound = false ∧
             (sanitize (chunks.map ChunkRecord.id) (rawState raw)).used_chunk_ids ≠ [] then
            extractTop q chunks
              (sanitize (chunks.map ChunkRecord.id) (rawState raw)).used_chunk_ids
          else [] } := rfl

/-- C1: for every result returned by handleQaFollowup, notFound is true
exactly when the returned citations and used_chunk_ids are both empty,
and a not-found result carries exactly the fixed sentence — on every
return path (empty evidence, JSON parse failure, sanitized main path). -/
theorem c1_notFound_invariant (w : World) (req : FollowupRequest) (r : FollowupResult)
    (h : handleQaFollowup w req = Except.ok r) :
    (r.notFound = true ↔ (r.citations = [] ∧ r.used_chunk_ids = [])) ∧
    (r.notFound = true → r.answer = NOT_FOUND_MSG) := by
  rcases handle_shape w req r h with rfl | ⟨chunks, raw, _, _, _, rfl⟩
  · simp [notFoundResult]
  · rw [mainResult_def]
    rcases sanitize_shape (chunks.map ChunkRecord.id) (rawState raw) with hs | ⟨hs, hc, hu⟩
    · rw [hs]; simp
    · rw [hs]; simp [hc]

/-- C2: every chunk id in the returned citations or used_chunk_ids is an
id of the evidence set assembled for the request; no outside id is ever
returned. -/
theorem c2_grounding (w : World) (req : FollowupRequest) (r : FollowupResult)
    (chunks : List ChunkRecord) (h : handleQaFollowup w req = Except.ok r)
    (ha : assembleChunks w req = Except.ok chunks) :
    (∀ c ∈ r.citations, c.chunk_id ∈ chunks.map ChunkRecord.id) ∧
    (∀ i ∈ r.used_chunk_ids, i ∈ chunks.map ChunkRecord.id) := by
  rcases handle_shape w req r h with rfl | ⟨chunks2, raw, ha2, _, _, rfl⟩
  · simp [notFoundResult]
  · have hcc : chunks2 = chunks := Except.ok.inj (ha2.symm.trans ha)
    subst hcc
    rw [mainResult_def]
    rcases sanitize_shape (chunks2.map ChunkRecord.id) (rawState raw) with hs | ⟨hs, _, _⟩
    · rw [hs]; simp
    · rw [hs]
      exact ⟨fun c hc => sanCitations_mem hc, fun i hi => sanUsed_mem hi⟩

/-- C3: the sanitization step, as a pure function of the model output
state and the allowed evidence ids, is idempotent. -/
theorem c3_sanitize_idempotent (allowed : List String) (s : SanState) :
    sanitize allowed (sanitize allowed s) = sanitize allowed s :=
  sanitize_idem allowed s

theorem dedupFirst_ne_nil {l : List String} (h : l ≠ []) : dedupFirst l ≠ [] := by
  cases l with
  | nil => exact absurd rfl h
  | cons a t => simp [dedupFirst, dedupFirstAux]

/-- C4 counterexample: on a parse failure the handler returns the fixed
not-found sentence as the answer, not the empty string the claim
states. -/
theorem c4_counterexample :
    handleQaFollowup w4 req4 = Except.ok (notFoundResult "t4") ∧
    (notFoundResult "t4").answer ≠ "" := by
  constructor
  · decide
  · decide

/-- C4 (amended): when the completion response fails to parse as JSON,
the handler surfaces no exception and performs no retry; it returns the
fixed not-found result, with notFound = true, answer equal to the fixed
not-found sentence, and empty citations and used_chunk_ids. -/
theorem c4_parse_failure_not_found (w : World) (req : FollowupRequest)
    (name : String) (chunks : List ChunkRecord)
    (hs : w.subject = some name) (ha : assembleChunks w req = Except.ok chunks)
    (hne : chunks ≠ []) (hm : w.model = Except.ok none) :
    handleQaFollowup w req = Except.ok (notFoundResult req.thread_id) := by
  unfold handleQaFollowup
  rw [hs, ha, hm]
  simp [List.length_eq_zero, hne]

theorem c4_witness :
    (w4.subject = some "Biology" ∧ assembleChunks w4 req4 = Except.ok [chunk1] ∧
     [chunk1] ≠ ([] : List ChunkRecord) ∧ w4.model = Except.ok none) ∧
    handleQaFollowup w4 req4 = Except.ok (notFoundResult "t4") :=
  ⟨⟨by decide, by decide, by decide, by decide⟩,
   c4_parse_failure_not_found w4 req4 "Biology" [chunk1]
     (by decide) (by decide) (by decide) (by decide)⟩

/-- C5: with no caller-supplied prior ids and a failing or empty
similarity search, the handler returns the fixed not-found result for
every completion-service outcome, so the completion service is never
invoked (even a world whose completion call would throw yields this ok
result). -/
theorem c5_empty_evidence_short_circuit (w : World) (req : FollowupRequest)
    (name : String) (hs : w.subject = some name)
    (hids : req.last_chunk_ids = [])
    (hsearch : (∃ e, w.search = Except.error e) ∨ w.search = Except.ok []) :
    handleQaFollowup w req = Except.ok (notFoundResult req.thread_id) := by
  have hassemble : assembleChunks w req = Except.ok [] := by
    simp only [assembleChunks]
    rw [hids]
    rcases hsearch with ⟨e, he⟩ | he <;>
      rw [he] <;> simp [dedupFirst, dedupFirstAux, mergeMatches]
  unfold handleQaFollowup
  rw [hs, hassemble]
  simp

theorem c5_witness :
    (w5.subject = some "Biology" ∧ req5.last_chunk_ids = [] ∧
     w5.search = Except.error "search timeout" ∧ w5.model = Except.error "service down") ∧
    handleQaFollowup w5 req5 = Except.ok (notFoundResult "t5") :=
  ⟨⟨by decide, by decide, by decide, by decide⟩,
   c5_empty_evidence_short_circuit w5 req5 "Biology" (by decide) (by decide)
     (Or.inl ⟨"search timeout", by decide⟩)⟩

/-- C6: a throwing embedding or similarity-search call is swallowed: the
handler behaves exactly as if the search had returned no matches, so the
request never fails because of the search path alone; and with a
resolving subject, nonempty prior chunks and a parsed model payload it
still reaches the completion and sanitization stages, producing the
sanitized main result. -/
theorem c6_search_failure_swallowed (w : World) (req : FollowupRequest) (e : String)
    (h : w.search = Except.error e) :
    handleQaFollowup w req = handleQaFollowup { w with search := Except.ok [] } req ∧
    (∀ name cs raw, w.subject = some name → w.baseChunks = Except.ok cs →
      req.last_chunk_ids ≠ [] → cs ≠ [] → w.model = Except.ok (some raw) →
      handleQaFollowup w req = Except.ok (mainResult req.thread_id req.question cs raw)) := by
  have hassemble : assembleChunks w req = assembleChunks { w with search := Except.ok [] } req := by
    simp only [assembleChunks]
    rw [h]
    simp [mergeMatches]
  constructor
  · unfold handleQaFollowup
    rw [hassemble]
  · intro name cs raw hs hb hids hcs hm
    have hlen : 0 < (dedupFirst req.last_chunk_ids).length :=
      List.length_pos.mpr (dedupFirst_ne_nil hids)
    have ha : assembleChunks w req = Except.ok cs := by
      simp only [assembleChunks]
      rw [if_pos hlen, hb, h]
    unfold handleQaFollowup
    rw [hs, ha, hm]
    simp [List.length_eq_zero, hcs]

theorem c6_witness :
    w6.search = Except.error "embedding failed" ∧
    (handleQaFollowup w6 req6 = handleQaFollowup { w6 with search := Except.ok [] } req6 ∧
     (∀ name cs raw, w6.subject = some name → w6.baseChunks = Except.ok cs →
       req6.last_chunk_ids ≠ [] → cs ≠ [] → w6.model = Except.ok (some raw) →
       handleQaFollowup w6 req6 = Except.ok (mainResult req6.thread_id req6.question cs raw))) :=
  ⟨by decide, c6_search_failure_swallowed w6 req6 "embedding failed" (by decide)⟩

theorem c1_witness :
    handleQaFollowup w8 req8 = Except.ok result8 ∧
    ((result8.notFound = true ↔ (result8.citations = [] ∧ result8.used_chunk_ids = [])) ∧
     (result8.notFound = true → result8.answer = NOT_FOUND_MSG)) :=
  ⟨by decide, c1_notFound_invariant w8 req8 result8 (by decide)⟩

theorem c2_witness :
    (handleQaFollowup w8 req8 = Except.ok result8 ∧
     assembleChunks w8 req8 = Except.ok [chunk1]) ∧
    ((∀ c ∈ result8.citations, c.chunk_id ∈ [chunk1].map ChunkRecord.id) ∧
     (∀ i ∈ result8.used_chunk_ids, i ∈ [chunk1].map ChunkRecord.id)) :=
  ⟨⟨by decide, by decide⟩,
   c2_grounding w8 req8 result8 [chunk1] (by decide) (by decide)⟩

theorem discover_mem {q : String} {chunks : List ChunkRecord} {used : List String}
    {e : Evidence} (h : e ∈ discoverEvidences q chunks used) :
    e.chunk_id ∈ used ∧ e.score = sentenceScore e.text (significantTokens q) ∧
    0 < e.score := by
  simp only [discoverEvidences, List.mem_flatMap] at h
  obtain ⟨cid, hcid, he⟩ := h
  cases hcb : chunkById chunks cid with
  | none => rw [hcb] at he; simp at he
  | some c =>
    rw [hcb] at he
    simp only [List.mem_filterMap] at he
    obtain ⟨s, _, hs⟩ := he
    by_cases hsc : sentenceScore s (significantTokens q) = 0
    · rw [if_pos hsc] at hs
      exact absurd hs (by simp)
    · rw [if_neg hsc] at hs
      have he2 := Option.some.inj hs
      subst he2
      exact ⟨hcid, rfl, Nat.pos_of_ne_zero hsc⟩

theorem orderedInsert_filter_score (n : Nat) (x : Evidence) :
    ∀ l : List Evidence,
      (List.orderedInsert scoreGE x l).filter (fun e => e.score == n) =
        if x.score == n then x :: l.filter (fun e => e.score == n)
        else l.filter (fun e => e.score == n) := by
  intro l
  induction l with
  | nil =>
    cases hx : x.score == n <;> simp [List.orderedInsert, hx]
  | cons b t ih =>
    simp only [List.orderedInsert]
    by_cases hr : scoreGE x b
    · rw [if_pos hr]
      cases hx : x.score == n <;> cases hb : b.score == n <;>
        simp [List.filter_cons, hx, hb]
    · rw [if_neg hr]
      have hlt : x.score < b.score := Nat.lt_of_not_le hr
      cases hx : x.score == n
      · simp only [List.filter_cons]
        cases hb : b.score == n <;> simp [hb, ih, hx]
      · have hxn : x.score = n := by simpa using hx
        have hbn : (b.score == n) = false := by
          simp only [beq_eq_false_iff_ne, ne_eq]
          omega
        simp [List.filter_cons, hbn, ih, hx]

theorem sortByScoreDesc_filter_score (n : Nat) :
    ∀ l : List Evidence,
      (sortByScoreDesc l).filter (fun e => e.score == n) =
        l.filter (fun e => e.score == n) := by
  intro l
  induction l with
  | nil => rfl
  | cons x t ih =>
    simp only [sortByScoreDesc, List.insertionSort] at *
    rw [orderedInsert_filter_score]
    cases hx : x.score == n <;> simp [List.filter_cons, hx, ih]

theorem extractTop_props (q : String) (chunks : List ChunkRecord) (used : List String) :
    (extractTop q chunks used).length ≤ 8 ∧
    (∀ x ∈ extractTop q chunks used, x.chunk_id ∈ used) ∧
    (∀ x ∈ extractTop q chunks used, 0 < sentenceScore x.text (significantTokens q)) ∧
    List.Pairwise (fun x y => sentenceScore y.text (significantTokens q) ≤
      sentenceScore x.text (significantTokens q)) (extractTop q chunks used) := by
  have hmem : ∀ e ∈ (sortByScoreDesc (discoverEvidences q chunks used)).take 8,
      e ∈ discoverEvidences q chunks used := by
    intro e he
    have h1 := List.mem_of_mem_take he
    simpa [sortByScoreDesc] using h1
  refine ⟨?_, ?_, ?_, ?_⟩
  · simp only [extractTop, List.length_map]
    exact List.length_take_le 8 _
  · intro x hx
    simp only [extractTop, List.mem_map] at hx
    obtain ⟨e, he, rfl⟩ := hx
    exact (discover_mem (hmem e he)).1
  · intro x hx
    simp only [extractTop, List.mem_map] at hx
    obtain ⟨e, he, rfl⟩ := hx
    have h2 := (discover_mem (hmem e he)).2
    exact h2.1 ▸ h2.2
  · simp only [extractTop]
    rw [List.pairwise_map]
    have hsorted : List.Pairwise scoreGE
        ((sortByScoreDesc (discoverEvidences q chunks used)).take 8) := by
      refine List.Pairwise.sublist (List.take_sublist 8 _) ?_
      exact List.sorted_insertionSort scoreGE (discoverEvidences q chunks used)
    refine List.Pairwise.imp_of_mem ?_ hsorted
    intro a b ha hb hr
    have h2a := (discover_mem (hmem a ha)).2.1
    have h2b := (discover_mem (hmem b hb)).2.1
    rw [← h2a, ← h2b]
    exact hr

theorem extractTop_nil (q : String) (chunks : List ChunkRecord) :
    extractTop q chunks [] = [] := rfl

/-- C7: supporting extracts come only from chunks listed in the final
used_chunk_ids, zero-scoring sentences are discarded, the list is
ordered by descending sentence score, holds at most eight entries, and
equals the stable descending-score sort of the discovery-ordered
evidence list truncated to eight (the filter identity makes the
stability of the sort explicit: each score class keeps its original
discovery order). -/
theorem c7_extract_pipeline (w : World) (req : FollowupRequest) (r : FollowupResult)
    (h : handleQaFollowup w req = Except.ok r) :
    r.supporting_extracts.length ≤ 8 ∧
    (∀ x ∈ r.supporting_extracts, x.chunk_id ∈ r.used_chunk_ids) ∧
    (∀ x ∈ r.supporting_extracts, 0 < sentenceScore x.text (significantTokens req.question)) ∧
    List.Pairwise (fun x y => sentenceScore y.text (significantTokens req.question) ≤
      sentenceScore x.text (significantTokens req.question)) r.supporting_extracts ∧
    (∀ chunks, assembleChunks w req = Except.ok chunks →
      r.supporting_extracts = extractTop req.question chunks r.used_chunk_ids ∧
      ∀ n : Nat,
        (sortByScoreDesc (discoverEvidences req.question chunks r.used_chunk_ids)).filter
            (fun ev => ev.score == n) =
          (discoverEvidences req.question chunks r.used_chunk_ids).filter
            (fun ev => ev.score == n)) := by
  rcases handle_shape w req r h with rfl | ⟨chunks2, raw, ha2, hne, hm, rfl⟩
  · refine ⟨by simp [notFoundResult], by simp [notFoundResult], by simp [notFoundResult],
      by simp [notFoundResult], ?_⟩
    intro chunks _
    exact ⟨by simp [notFoundResult, extractTop_nil],
      fun n => sortByScoreDesc_filter_score n _⟩
  · rw [mainResult_def]
    rcases sanitize_shape (chunks2.map ChunkRecord.id) (rawState raw) with hs | ⟨hs, hc, hu⟩
    · rw [hs]
      refine ⟨by simp, by simp, by simp, by simp, ?_⟩
      intro chunks _
      exact ⟨by simp [extractTop_nil], fun n => sortByScoreDesc_filter_score n _⟩
    · rw [hs]
      dsimp only
      rw [if_pos ⟨rfl, hu⟩]
      obtain ⟨h1, h2, h3, h4⟩ := extractTop_props req.question chunks2
        (sanUsed (chunks2.map ChunkRecord.id) (rawState raw))
      refine ⟨h1, h2, h3, h4, ?_⟩
      intro chunks ha
      have hcc : chunks2 = chunks := Except.ok.inj (ha2.symm.trans ha)
      subst hcc
      exact ⟨rfl, fun n => sortByScoreDesc_filter_score n _⟩

theorem c7_witness :
    handleQaFollowup w8 req8 = Except.ok result8 ∧
    (result8.supporting_extracts.length ≤ 8 ∧
     (∀ x ∈ result8.supporting_extracts, x.chunk_id ∈ result8.used_chunk_ids) ∧
     (∀ x ∈ result8.supporting_extracts,
        0 < sentenceScore x.text (significantTokens req8.question)) ∧
     List.Pairwise (fun x y => sentenceScore y.text (significantTokens req8.question) ≤
       sentenceScore x.text (significantTokens req8.question)) result8.supporting_extracts ∧
     (∀ chunks, assembleChunks w8 req8 = Except.ok chunks →
       result8.supporting_extracts = extractTop req8.question chunks result8.used_chunk_ids ∧
       ∀ n : Nat,
         (sortByScoreDesc (discoverEvidences req8.question chunks
             result8.used_chunk_ids)).filter (fun ev => ev.score == n) =
           (discoverEvidences req8.question chunks result8.used_chunk_ids).filter
             (fun ev => ev.score == n))) :=
  ⟨by decide, c7_extract_pipeline w8 req8 result8 (by decide)⟩

/-- C8 counterexample: with the scenario question, the sentence token
"converts" does not match the question token "convert" (the tokenizer
performs no stemming), so both sentences score exactly 1 and the
photosynthesis sentence is not scored above the chlorophyll sentence. -/
theorem c8_counterexample :
    sentenceScore "Photosynthesis converts light into chemical energy."
        (significantTokens "How do plants convert light?") = 1 ∧
    sentenceScore "Plants use chlorophyll."
        (significantTokens "How do plants convert light?") = 1 ∧
    ¬ (sentenceScore "Plants use chlorophyll."
          (significantTokens "How do plants convert light?") <
        sentenceScore "Photosynthesis converts light into chemical energy."
          (significantTokens "How do plants convert light?")) :=
  ⟨by decide, by decide, by decide⟩

/-- C8 (amended): on the scenario evidence set and question the
sanitizer passes the model output through unchanged; the two sentences
tie at score 1 (token overlap "light" and "plants" respectively, since
"converts" differs from "convert"), and the photosynthesis sentence is
still returned as the top supporting extract through the stable
tie-break in discovery order. -/
theorem c8_amended :
    handleQaFollowup w8 req8 = Except.ok result8 ∧
    result8.supporting_extracts.head? = some
      { text := "Photosynthesis converts light into chemical energy.", chunk_id := "c1",
        citation := some ("notes.pdf", "1-2") } :=
  ⟨by decide, by decide⟩

/-- C9: only the chunk id of a model citation is validated against the
evidence set: a citation with an allowed chunk id but fabricated file
name and page range is returned verbatim in the final citations list
(while supporting extracts carry the stored chunk attribution). -/
theorem c9_fabricated_citation_fields :
    handleQaFollowup w9 req9 = Except.ok
      { thread_id := "t9", notFound := false, answer := "An answer.",
        citations := [{ chunk_id := "c1", file_name := "fake.pdf", page_range := "99" }],
        used_chunk_ids := ["c1"],
        supporting_extracts :=
          [{ text := "Plants use chlorophyll.", chunk_id := "c1",
             citation := some ("notes.pdf", "1-2") }] } ∧
    "fake.pdf" ≠ chunk1.file_name ∧ "99" ≠ chunk1.page_range :=
  ⟨by decide, by decide, by decide⟩

/-- C10: a parsed payload with no answer field and no notFound field but
one citation whose chunk id is in the evidence set yields a found result
(notFound = false) whose answer is the empty string. -/
theorem c10_found_with_empty_answer :
    handleQaFollowup w10 req10 = Except.ok
      { thread_id := "t10", notFound := false, answer := "",
        citations := [{ chunk_id := "c1", file_name := "notes.pdf", page_range := "1-2" }],
        used_chunk_ids := ["c1"], supporting_extracts := [] } := by
  decide
